import Mathlib

/-!
Shallow embedding of the arXiv MCP server core (src/index.ts) for
verification of its natural-language specification.

The embedding models the pure data transformations of the TypeScript
source: query construction (formatSearchTerm, buildSearchQuery, the
SearchParams assembly of searchPapers / getPaper / searchByCategory),
feed-response normalization (processArxivResponse), PDF-cache behaviour
(downloadPdf, with the filesystem cache made an explicit state and
network/write effects made explicit counters), and the text cleanup of
getPaperContent. JavaScript strings are modelled as Lean Strings
(operating on their character lists), JavaScript numbers used for
pagination as Int, `undefined`-able fields as Option, and thrown
exceptions as Except.
-/

/-- Character class of the JavaScript regex `\s` (also the set trimmed by
`String.prototype.trim`): space, tab, LF, VT, FF, CR, NBSP, and the
Unicode space separators, line/paragraph separators and BOM. -/
def jsWs (c : Char) : Bool :=
  let n := c.toNat
  n == 32 || (9 ≤ n && n ≤ 13) || n == 0xa0 || n == 0x1680 ||
  (0x2000 ≤ n && n ≤ 0x200a) || n == 0x2028 || n == 0x2029 ||
  n == 0x202f || n == 0x205f || n == 0x3000 || n == 0xfeff

/-- List-level model of JavaScript `String.prototype.trim`: drop leading
and trailing `\s` characters. -/
def trimL (l : List Char) : List Char :=
  ((l.dropWhile jsWs).reverse.dropWhile jsWs).reverse

/-- Model of JavaScript `value.trim()` on Lean strings. -/
def jsTrim (s : String) : String := ⟨trimL s.data⟩

/-- Worker for `collapseWs`: the Boolean records whether the previous
character was a `\s` character (in which case a further `\s` character
belongs to the same run and emits nothing). -/
def collapseAux : Bool → List Char → List Char
  | _, [] => []
  | prevWs, c :: rest =>
    if jsWs c then
      if prevWs then collapseAux true rest
      else ' ' :: collapseAux true rest
    else c :: collapseAux false rest

/-- Model of `text.replace(/\s+/g, ' ')` (src/index.ts:644): every maximal
run of `\s` characters becomes a single space. -/
def collapseWs (l : List Char) : List Char := collapseAux false l

/-- Model of `text.replace(/(\r\n|\n|\r)/gm, '\n')` (src/index.ts:645):
each CRLF pair, lone CR, or lone LF becomes a single LF. -/
def renormNl : List Char → List Char
  | [] => []
  | '\r' :: '\n' :: rest => '\n' :: renormNl rest
  | '\r' :: rest => '\n' :: renormNl rest
  | '\n' :: rest => '\n' :: renormNl rest
  | c :: rest => c :: renormNl rest

/-- The text cleanup applied by getPaperContent (src/index.ts:643-646) to
the text extracted from the PDF: collapse whitespace runs to single
spaces, renormalize line terminators to LF, then trim. -/
def cleanText (s : String) : String :=
  ⟨trimL (renormNl (collapseWs s.data))⟩

/-- Model of `paperId.replace(/\//g, '_')` (src/index.ts:567): every
slash in the identifier becomes an underscore. -/
def sanitizeId (s : String) : String :=
  ⟨s.data.map (fun c => if c = '/' then '_' else c)⟩

/-- The flat cache filename `${sanitizedPaperId}.pdf` used by downloadPdf
(src/index.ts:568). -/
def cacheFileName (paperId : String) : String := sanitizeId paperId ++ ".pdf"

/-- The filesystem state seen by downloadPdf: the set of filenames present
in the temp PDF directory. -/
structure PdfState where
  files : List String
deriving DecidableEq

/-- Observable outcome of one downloadPdf call: the returned path and the
number of network GETs and filesystem writes it performed. -/
structure DlResult where
  path : String
  networkCalls : Nat
  writes : Nat
deriving DecidableEq

/-- Model of downloadPdf (src/index.ts:561-597) on its success path: build
the sanitized cache filename, return it immediately if the file exists
(no network call, no write); otherwise perform one GET and one write and
add the file to the cache directory. -/
def downloadPdf (st : PdfState) (paperId : String) : DlResult × PdfState :=
  let p := cacheFileName paperId
  if p ∈ st.files then (⟨p, 0, 0⟩, st)
  else (⟨p, 1, 1⟩, ⟨p :: st.files⟩)

/-- Model of formatSearchTerm (src/index.ts:286-298): trim the value; if
the trimmed value contains a space character, wrap it in double quotes
after the field marker, otherwise emit it bare. -/
def formatSearchTerm (pfx : String) (value : String) : String :=
  let trimmed := jsTrim value
  if trimmed.data.contains ' ' then pfx ++ ":\"" ++ trimmed ++ "\""
  else pfx ++ ":" ++ trimmed

/-- Arguments of the search_papers tool (interface SearchPapersArgs,
src/index.ts:40-50); absent fields are `none`. -/
structure SearchPapersArgs where
  query : Option String
  category : Option String
  author : Option String
  title : Option String
  abstract : Option String
  start : Option Int
  max_results : Option Int
  sort_by : Option String
  sort_order : Option String
deriving DecidableEq

/-- Arguments of the get_paper tool (interface GetPaperArgs,
src/index.ts:53-55). -/
structure GetPaperArgs where
  paper_id : String
deriving DecidableEq

/-- Arguments of the search_by_category tool (interface
SearchByCategoryArgs, src/index.ts:58-64). -/
structure SearchByCategoryArgs where
  category : String
  start : Option Int
  max_results : Option Int
  sort_by : Option String
  sort_order : Option String
deriving DecidableEq

/-- The upstream parameter set (interface SearchParams,
src/index.ts:30-37); a field left unassigned is `none`. -/
structure SearchParams where
  search_query : Option String
  id_list : Option String
  start : Option Int
  max_results : Option Int
  sortBy : Option String
  sortOrder : Option String
deriving DecidableEq

/-- A JavaScript truthiness guard `if (field) { push(f field) }` on an
optional string field: contributes a term only when the field is present
and non-empty. -/
def optTerm (f : String → String) : Option String → List String
  | some v => if v = "" then [] else [f v]
  | none => []

/-- Model of JavaScript `Array.prototype.join` with separator `+AND+`
(src/index.ts:330): empty list gives the empty string, a singleton gives
its element, and each further element is preceded by the separator. -/
def joinAnd : List String → String
  | [] => ""
  | [t] => t
  | t :: rest => t ++ "+AND+" ++ joinAnd rest

/-- Model of buildSearchQuery (src/index.ts:304-331): collect the
formatted terms of the truthy fields in the fixed order general,
category, author, title, abstract (the category term is emitted bare,
never quoted) and join them with the `+AND+` token. -/
def buildSearchQuery (args : SearchPapersArgs) : String :=
  joinAnd
    (optTerm (formatSearchTerm "all") args.query ++
     optTerm (fun c => "cat:" ++ c) args.category ++
     optTerm (formatSearchTerm "au") args.author ++
     optTerm (formatSearchTerm "ti") args.title ++
     optTerm (formatSearchTerm "abs") args.abstract)

/-- A JavaScript truthiness guard `if (field) { params.x = field }` on an
optional string: keeps the value only when present and non-empty. -/
def optTruthy : Option String → Option String
  | some s => if s = "" then none else some s
  | none => none

/-- The clamped max_results assignment shared by searchPapers
(src/index.ts:347-351) and searchByCategory (src/index.ts:399-403):
`Math.min(v, 2000)` when supplied, the default 10 when absent. -/
def clampMaxResults : Option Int → Int
  | some v => min v 2000
  | none => 10

/-- Model of the SearchParams assembly of searchPapers
(src/index.ts:333-361): the built query drives search_query when
non-empty (truthiness guard at line 338), id_list is never assigned,
start passes through when present, max_results is clamped with default
10, and the sort fields pass through when truthy. -/
def searchPapers (args : SearchPapersArgs) : SearchParams :=
  let q := buildSearchQuery args
  ⟨if q = "" then none else some q,
   none,
   args.start,
   some (clampMaxResults args.max_results),
   optTruthy args.sort_by,
   optTruthy args.sort_order⟩

/-- Model of the SearchParams assembly of getPaper (src/index.ts:373-378):
only id_list is assigned. -/
def getPaper (args : GetPaperArgs) : SearchParams :=
  ⟨none, some args.paper_id, none, none, none, none⟩

/-- Model of the SearchParams assembly of searchByCategory
(src/index.ts:389-412): search_query is always `cat:` plus the category,
id_list is never assigned, and the pagination and sort fields follow the
same rules as searchPapers. -/
def searchByCategory (args : SearchByCategoryArgs) : SearchParams :=
  ⟨some ("cat:" ++ args.category),
   none,
   args.start,
   some (clampMaxResults args.max_results),
   optTruthy args.sort_by,
   optTruthy args.sort_order⟩

/-- Model of JavaScript string replace with a string pattern and an empty
replacement (src/index.ts:533): remove the first occurrence of `pat` in
`s`, leaving `s` unchanged when `pat` occurs nowhere. -/
def replaceFirst (pat : List Char) : List Char → List Char
  | [] => []
  | c :: rest =>
    if (c :: rest).take pat.length = pat then (c :: rest).drop pat.length
    else c :: replaceFirst pat rest

/-- The URI stem `http://arxiv.org/abs/` stripped from the entry id to
obtain arxiv_id (src/index.ts:533). -/
def absUriPat : List Char := "http://arxiv.org/abs/".data

/-- Model of the arxiv_id derivation at src/index.ts:533 — a string
replace removing the URI stem from the trimmed entry id — applied here
to the already-trimmed primary identifier. -/
def arxivShortId (s : String) : String := ⟨replaceFirst absUriPat s.data⟩

/-- One extracted feed entry (the paper object built at
src/index.ts:523-534). -/
structure PaperRecord where
  id : String
  title : String
  summary : String
  authors : List String
  published : String
  updated : String
  categories : List String
  links : List (String × String × String)
  arxiv_id : String
deriving DecidableEq

/-- The payload of a successful processArxivResponse result
(src/index.ts:539-545). -/
structure FeedData where
  feed_title : String
  total_results : Nat
  start_index : Nat
  items_per_page : Nat
  papers : List PaperRecord
deriving DecidableEq

/-- The two shapes processArxivResponse can return: the parsed feed
(src/index.ts:539-545) or the error object of the catch branch
(src/index.ts:548-551). -/
inductive ArxivResponse where
  | ok (data : FeedData)
  | err (error : String) (raw_response : String)
deriving DecidableEq

/-- Model of JavaScript `s.substring(0, n)`: the first `n` characters of
`s` (all of `s` when shorter). -/
def jsSubstringTo (n : Nat) (s : String) : String := ⟨s.data.take n⟩

/-- Model of processArxivResponse (src/index.ts:463-553). The body of its
try block — the regex extraction of feed metadata and per-entry fields —
is passed in as an explicit `extract` function whose `Except.error` value
embeds a thrown JavaScript exception; the catch branch turns any such
exception into the fixed error message together with the first 1000
characters of the raw payload followed by an ellipsis, per the
substring-and-append expression at src/index.ts:550. -/
def processArxivResponse (extract : String → Except String FeedData)
    (xmlData : String) : ArxivResponse :=
  match extract xmlData with
  | .ok d => .ok d
  | .error _ =>
    .err "Failed to parse arXiv response" (jsSubstringTo 1000 xmlData ++ "...")

/-- Decidable occurrence test: `pat` matches inside `l` at some offset. -/
def occursIn (pat l : List Char) : Bool :=
  (List.range (l.length + 1)).any (fun i => decide ((l.drop i).take pat.length = pat))

/-- Spec-side formulation of the query terms, written from the
specification words (one `prefix:value` term per populated field,
in the fixed order general, category, author, title, abstract) for
comparison with the source-side buildSearchQuery: a field contributes
a term exactly when it is present and non-empty. -/
def specQueryTerms (sargs : SearchPapersArgs) : List String :=
  [sargs.query.bind (fun v => if v = "" then none else some (formatSearchTerm "all" v)),
   sargs.category.bind (fun v => if v = "" then none else some ("cat:" ++ v)),
   sargs.author.bind (fun v => if v = "" then none else some (formatSearchTerm "au" v)),
   sargs.title.bind (fun v => if v = "" then none else some (formatSearchTerm "ti" v)),
   sargs.abstract.bind (fun v => if v = "" then none else some (formatSearchTerm "abs" v))].filterMap id

/-- The separator-prefixed tail of a separator join: one copy of the
separator before each element. -/
def tailJoin (s : String) : List String → String
  | [] => ""
  | a :: as => s ++ a ++ tailJoin s as

/- Helper lemmas -/

/-- Every character emitted by `collapseAux` is a space or a
non-whitespace character of the input. -/
theorem collapseAux_mem (l : List Char) :
    ∀ (b : Bool) (c : Char), c ∈ collapseAux b l → c = ' ' ∨ jsWs c = false := by
  induction l with
  | nil => intro b c h; cases b <;> simp [collapseAux] at h
  | cons x rest ih =>
    intro b c h
    unfold collapseAux at h
    by_cases hx : jsWs x
    · simp only [hx, if_true] at h
      cases b with
      | true => simpa using ih true c h
      | false =>
        simp at h
        rcases h with h | h
        · exact Or.inl h
        · exact ih true c h
    · simp only [hx, if_false] at h
      rcases List.mem_cons.mp h with h | h
      · subst h; exact Or.inr (by simpa using hx)
      · exact ih false c h

/-- `renormNl` keeps a head character that is neither LF nor CR. -/
theorem renormNl_cons_ne (x : Char) (rest : List Char)
    (hn : x ≠ '\n') (hr : x ≠ '\r') :
    renormNl (x :: rest) = x :: renormNl rest := by
  conv_lhs => unfold renormNl
  split
  · rename_i heq; exact absurd heq (List.cons_ne_nil x rest)
  · rename_i heq; injection heq with h1 h2; exact absurd h1 hr
  · rename_i heq; injection heq with h1 h2; exact absurd h1 hr
  · rename_i heq; injection heq with h1 h2; exact absurd h1 hn
  · rename_i heq; injection heq with h1 h2; rw [h1, h2]

/-- `renormNl` is the identity on lists without CR or LF. -/
theorem renormNl_eq_self (l : List Char)
    (h : ∀ c ∈ l, c ≠ '\n' ∧ c ≠ '\r') : renormNl l = l := by
  induction l with
  | nil => rfl
  | cons x rest ih =>
    have hx := h x (List.mem_cons_self x rest)
    have hrest : ∀ c ∈ rest, c ≠ '\n' ∧ c ≠ '\r' :=
      fun c hc => h c (List.mem_cons_of_mem x hc)
    rw [renormNl_cons_ne x rest hx.1 hx.2, ih hrest]

/-- Characters of the trimmed list come from the original list. -/
theorem trimL_mem {c : Char} {l : List Char} (h : c ∈ trimL l) : c ∈ l := by
  unfold trimL at h
  rw [List.mem_reverse] at h
  have h1 := (List.dropWhile_sublist jsWs).mem h
  rw [List.mem_reverse] at h1
  exact (List.dropWhile_sublist jsWs).mem h1

/-- No CR or LF survives whitespace collapsing. -/
theorem collapseWs_no_nl (l : List Char) :
    ∀ c ∈ collapseWs l, c ≠ '\n' ∧ c ≠ '\r' := by
  intro c hc
  rcases collapseAux_mem l false c hc with h | h
  · subst h; exact ⟨by decide, by decide⟩
  · constructor
    · intro he; subst he; simp [jsWs] at h
    · intro he; subst he; simp [jsWs] at h

/-- When the pattern heads the list, `replaceFirst` drops exactly it. -/
theorem replaceFirst_of_lead (pat s : List Char)
    (h : s.take pat.length = pat) :
    replaceFirst pat s = s.drop pat.length := by
  cases s with
  | nil =>
    have hp : pat = [] := by simpa using h.symm
    simp [replaceFirst, hp]
  | cons c rest => simp [replaceFirst, h]

/-- When the pattern matches at no offset, `replaceFirst` is the
identity. -/
theorem replaceFirst_of_absent (pat s : List Char)
    (h : ∀ i : Nat, (s.drop i).take pat.length ≠ pat) :
    replaceFirst pat s = s := by
  induction s with
  | nil => rfl
  | cons c rest ih =>
    have h0 : (c :: rest).take pat.length ≠ pat := by simpa using h 0
    have hrest : ∀ i : Nat, (rest.drop i).take pat.length ≠ pat := by
      intro i
      simpa using h (i + 1)
    simp [replaceFirst, h0, ih hrest]

/-- A false `occursIn` means the pattern matches at no offset. -/
theorem occursIn_false_absent (pat l : List Char) (hpat : pat ≠ [])
    (h : occursIn pat l = false) :
    ∀ i : Nat, (l.drop i).take pat.length ≠ pat := by
  intro i
  by_cases hi : i < l.length + 1
  · intro hmatch
    unfold occursIn at h
    rw [List.any_eq_false] at h
    have := h i (List.mem_range.mpr hi)
    simp [hmatch] at this
  · have hnil : l.drop i = [] := List.drop_eq_nil_of_le (by omega)
    rw [hnil]
    simpa using fun he => hpat (Eq.symm he)

/-- C7: the text returned by get_paper_content is the extracted PDF text
with all whitespace runs collapsed to single spaces, then line
terminators renormalized, then trimmed — and since the collapse already
removes every line terminator, the renormalization step is the identity
and the output contains no newline, so multi-paragraph structure is not
preserved. -/
theorem cleanTextSpec (s : String) :
    cleanText s = ⟨trimL (collapseWs s.data)⟩ ∧
    ∀ c ∈ (cleanText s).data, ¬(c = '\n' ∨ c = '\r') := by
  have hnl := collapseWs_no_nl s.data
  have h2 : renormNl (collapseWs s.data) = collapseWs s.data :=
    renormNl_eq_self _ hnl
  constructor
  · unfold cleanText
    rw [h2]
  · intro c hc hor
    have hc2 : c ∈ trimL (renormNl (collapseWs s.data)) := hc
    rw [h2] at hc2
    have hmem := trimL_mem hc2
    rcases hor with h | h
    · exact (hnl c hmem).1 h
    · exact (hnl c hmem).2 h

/-- Witness for C7 at a concrete input containing a newline. -/
theorem cleanTextSpecW :
    'a' ∈ (cleanText "a\nb").data ∧ ¬('a' = '\n' ∨ 'a' = '\r') :=
  ⟨by decide, (cleanTextSpec "a\nb").2 'a' (by decide)⟩

/-- C1: downloadPdf first tests whether the cache file for the sanitized
identifier exists and, if so, returns that path immediately with no
network call and no write; the second of two successive calls for the
same identifier always performs zero network calls and zero writes; and
starting from a state without the cache file, two successive calls
perform exactly one download and one filesystem write in total. -/
theorem downloadPdfCacheSpec (st : PdfState) (pid : String) :
    (cacheFileName pid ∈ st.files →
      downloadPdf st pid = (⟨cacheFileName pid, 0, 0⟩, st)) ∧
    ((downloadPdf (downloadPdf st pid).2 pid).1.networkCalls = 0 ∧
     (downloadPdf (downloadPdf st pid).2 pid).1.writes = 0) ∧
    (cacheFileName pid ∉ st.files →
      (downloadPdf st pid).1.networkCalls = 1 ∧
      (downloadPdf st pid).1.writes = 1 ∧
      (downloadPdf st pid).1.networkCalls +
        (downloadPdf (downloadPdf st pid).2 pid).1.networkCalls = 1 ∧
      (downloadPdf st pid).1.writes +
        (downloadPdf (downloadPdf st pid).2 pid).1.writes = 1) := by
  by_cases h : cacheFileName pid ∈ st.files <;>
    simp [downloadPdf, h]

/-- Witness for C1: an empty cache directory and the identifier
cs/0001001. -/
theorem downloadPdfCacheSpecW :
    cacheFileName "cs/0001001" ∉ (PdfState.mk []).files ∧
    ((downloadPdf ⟨[]⟩ "cs/0001001").1.networkCalls = 1 ∧
     (downloadPdf ⟨[]⟩ "cs/0001001").1.writes = 1 ∧
     (downloadPdf ⟨[]⟩ "cs/0001001").1.networkCalls +
       (downloadPdf (downloadPdf ⟨[]⟩ "cs/0001001").2 "cs/0001001").1.networkCalls = 1 ∧
     (downloadPdf ⟨[]⟩ "cs/0001001").1.writes +
       (downloadPdf (downloadPdf ⟨[]⟩ "cs/0001001").2 "cs/0001001").1.writes = 1) :=
  ⟨by decide, (downloadPdfCacheSpec ⟨[]⟩ "cs/0001001").2.2 (by decide)⟩

/-- C8: sanitization replaces every slash of the identifier with an
underscore (so the output never contains a slash, and identifiers
without a slash are unchanged), and the identifier cs/0001001 maps to
the cache filename cs_0001001.pdf. -/
theorem sanitizeIdSpec (pid : String) :
    (∀ c ∈ (sanitizeId pid).data, c ≠ '/') ∧
    ('/' ∉ pid.data → sanitizeId pid = pid) ∧
    cacheFileName "cs/0001001" = "cs_0001001.pdf" := by
  refine ⟨?_, ?_, by decide⟩
  · intro c hc
    simp only [sanitizeId, List.mem_map] at hc
    rcases hc with ⟨a, ha, rfl⟩
    by_cases hsl : a = '/' <;> simp [hsl]
  · intro h
    unfold sanitizeId
    have hmap : pid.data.map (fun c => if c = '/' then '_' else c) =
        pid.data.map id := by
      refine List.map_congr_left ?_
      intro a ha
      have : a ≠ '/' := fun he => h (he ▸ ha)
      simp [this]
    rw [hmap, List.map_id]

/-- Witness for C8 at an identifier without a slash. -/
theorem sanitizeIdSpecW :
    '/' ∉ ("2104.13478" : String).data ∧ sanitizeId "2104.13478" = "2104.13478" :=
  ⟨by decide, (sanitizeIdSpec "2104.13478").2.1 (by decide)⟩

/-- joinAnd on the empty list. -/
theorem joinAnd_nil : joinAnd [] = "" := rfl

/-- joinAnd on a singleton. -/
theorem joinAnd_single (t : String) : joinAnd [t] = t := rfl

/-- joinAnd prepends the separator before each further element. -/
theorem joinAnd_cons (t u : String) (rest : List String) :
    joinAnd (t :: u :: rest) = t ++ "+AND+" ++ joinAnd (u :: rest) := rfl

/-- The accumulator worker of String.intercalate appends the
separator-prefixed tail to its accumulator. -/
theorem intercalate_go_eq (s : String) : ∀ (l : List String) (acc : String),
    String.intercalate.go acc s l = acc ++ tailJoin s l := by
  intro l
  induction l with
  | nil =>
    intro acc
    show acc = acc ++ ""
    rw [String.append_empty]
  | cons a as ih =>
    intro acc
    show String.intercalate.go (acc ++ s ++ a) s as =
      acc ++ (s ++ a ++ tailJoin s as)
    rw [ih]
    simp [String.append_assoc]

/-- String.intercalate separates the first element from the join of the
rest by one copy of the separator. -/
theorem intercalate_cons2 (s t u : String) (rest : List String) :
    String.intercalate s (t :: u :: rest) =
      t ++ s ++ String.intercalate s (u :: rest) := by
  show String.intercalate.go t s (u :: rest) =
    t ++ s ++ String.intercalate.go u s rest
  rw [intercalate_go_eq, intercalate_go_eq]
  show t ++ (s ++ u ++ tailJoin s rest) = t ++ s ++ (u ++ tailJoin s rest)
  simp [String.append_assoc]

/-- The JavaScript join modelled by joinAnd agrees with the standard
separator intercalation on every term list. -/
theorem joinAnd_eq_intercalate (l : List String) :
    joinAnd l = String.intercalate "+AND+" l := by
  induction l with
  | nil => rfl
  | cons t rest ih =>
    cases rest with
    | nil => rfl
    | cons u rs => rw [joinAnd_cons, ih, intercalate_cons2]

/-- The truthiness-guarded term of one field equals the spec-side
bind-and-filter formulation of that field. -/
theorem optTerm_eq_toList (f : String → String) (o : Option String) :
    optTerm f o = (o.bind fun v => if v = "" then none else some (f v)).toList := by
  cases o with
  | none => rfl
  | some v => by_cases h : v = "" <;> simp [optTerm, h]

/-- filterMap id splits off the head option as its element list. -/
theorem filterMap_id_cons (a : Option String) (l : List (Option String)) :
    List.filterMap id (a :: l) = a.toList ++ List.filterMap id l := by
  cases a <;> simp

/-- The spec-side ordered term list coincides with the concatenation of
truthiness-guarded terms used by buildSearchQuery. -/
theorem specQueryTerms_eq (sargs : SearchPapersArgs) :
    specQueryTerms sargs =
      optTerm (formatSearchTerm "all") sargs.query ++
      optTerm (fun c => "cat:" ++ c) sargs.category ++
      optTerm (formatSearchTerm "au") sargs.author ++
      optTerm (formatSearchTerm "ti") sargs.title ++
      optTerm (formatSearchTerm "abs") sargs.abstract := by
  simp [specQueryTerms, filterMap_id_cons, optTerm_eq_toList]

/-- C2: if per-entry extraction throws, processArxivResponse returns the
error-shaped object carrying the fixed error message and the first 1000
characters of the raw payload (followed by an ellipsis marker) instead
of propagating the exception; the truncation is bounded by 1000
characters; and the caller always receives one of the two response
shapes. -/
theorem processArxivResponseSpec (extract : String → Except String FeedData)
    (xml e : String) :
    (extract xml = .error e →
      processArxivResponse extract xml =
        .err "Failed to parse arXiv response" (jsSubstringTo 1000 xml ++ "...")) ∧
    (jsSubstringTo 1000 xml).length ≤ 1000 ∧
    ((∃ d, processArxivResponse extract xml = .ok d) ∨
      ∃ msg raw, processArxivResponse extract xml = .err msg raw) := by
  refine ⟨?_, ?_, ?_⟩
  · intro h
    simp [processArxivResponse, h]
  · show (xml.data.take 1000).length ≤ 1000
    rw [List.length_take]
    exact min_le_left _ _
  · cases hx : extract xml with
    | ok d => exact Or.inl ⟨d, by simp [processArxivResponse, hx]⟩
    | error e2 =>
      exact Or.inr ⟨"Failed to parse arXiv response",
        jsSubstringTo 1000 xml ++ "...", by simp [processArxivResponse, hx]⟩

/-- Witness for C2: an extraction that throws on a short payload. -/
theorem processArxivResponseSpecW :
    (fun _ : String => (Except.error "boom" : Except String FeedData)) "<feed" =
      Except.error "boom" ∧
    processArxivResponse (fun _ => Except.error "boom") "<feed" =
      ArxivResponse.err "Failed to parse arXiv response" "<feed..." := by
  refine ⟨rfl, ?_⟩
  have h := (processArxivResponseSpec (fun _ => Except.error "boom") "<feed" "boom").1 rfl
  have he : jsSubstringTo 1000 "<feed" ++ "..." = "<feed..." := by decide
  rw [h, he]

/-- C3 counterexample: the value a-TAB-b still contains a whitespace
character (the tab) after trimming, yet formatSearchTerm emits it
unquoted — the quoting test checks only for the space character, not for
whitespace in general. -/
theorem formatSearchTermCex :
    jsWs '\t' = true ∧ '\t' ∈ (jsTrim "a\tb").data ∧
    formatSearchTerm "all" "a\tb" = "all:a\tb" ∧
    (formatSearchTerm "all" "a\tb").data.contains '"' = false := by
  refine ⟨by decide, by decide, by decide, by decide⟩

/-- C3 (amended): a criterion value whose trimmed form contains a space
character is wrapped in double quotes after the field marker; a trimmed
value without a space is emitted bare; and the category term is never
quoted, whatever the category value contains. -/
theorem formatSearchTermSpec (pfx value cat : String) (hcat : cat ≠ "") :
    ((jsTrim value).data.contains ' ' = true →
      formatSearchTerm pfx value = pfx ++ ":\"" ++ jsTrim value ++ "\"") ∧
    ((jsTrim value).data.contains ' ' = false →
      formatSearchTerm pfx value = pfx ++ ":" ++ jsTrim value) ∧
    buildSearchQuery ⟨none, some cat, none, none, none, none, none, none, none⟩ =
      "cat:" ++ cat := by
  refine ⟨?_, ?_, ?_⟩
  · intro h
    unfold formatSearchTerm
    rw [if_pos h]
  · intro h
    unfold formatSearchTerm
    rw [if_neg (by simpa using h)]
  · simp [buildSearchQuery, optTerm, hcat, joinAnd_single]

/-- Witness for C3 (amended): a spaced author phrase is quoted and a
spaced category value stays bare. -/
theorem formatSearchTermSpecW :
    (jsTrim "Yann LeCun").data.contains ' ' = true ∧
    formatSearchTerm "au" "Yann LeCun" = "au" ++ ":\"" ++ jsTrim "Yann LeCun" ++ "\"" ∧
    buildSearchQuery ⟨none, some "a b", none, none, none, none, none, none, none⟩ =
      "cat:" ++ "a b" :=
  ⟨by decide,
   (formatSearchTermSpec "au" "Yann LeCun" "a b" (by decide)).1 (by decide),
   (formatSearchTermSpec "au" "Yann LeCun" "a b" (by decide)).2.2⟩

/-- C4: for every SearchCriteria, buildSearchQuery equals the +AND+
intercalation of the per-field terms of the populated fields taken in
the fixed order general (all), category (cat), author (au), title (ti),
abstract (abs); hence with no populated field it returns the empty
string, and with two or more populated fields each further term is
preceded by one literal +AND+ separator. -/
theorem buildSearchQuerySpec (sargs : SearchPapersArgs) :
    buildSearchQuery sargs = String.intercalate "+AND+" (specQueryTerms sargs) ∧
    (specQueryTerms sargs = [] → buildSearchQuery sargs = "") ∧
    (∀ t u ts, specQueryTerms sargs = t :: u :: ts →
      buildSearchQuery sargs =
        t ++ "+AND+" ++ String.intercalate "+AND+" (u :: ts)) := by
  have hmain : buildSearchQuery sargs =
      String.intercalate "+AND+" (specQueryTerms sargs) := by
    rw [specQueryTerms_eq, ← joinAnd_eq_intercalate]
    rfl
  refine ⟨hmain, ?_, ?_⟩
  · intro h
    rw [hmain, h]
    rfl
  · intro t u ts h
    rw [hmain, h, intercalate_cons2]

/-- Witness for C4: category and abstract populated — two fields joined
with one +AND+ in the fixed order. -/
theorem buildSearchQuerySpecW :
    specQueryTerms ⟨none, some "cs.AI", none, none, some "entropy",
        none, none, none, none⟩ = ["cat:cs.AI", "abs:entropy"] ∧
    buildSearchQuery ⟨none, some "cs.AI", none, none, some "entropy",
        none, none, none, none⟩ =
      "cat:cs.AI" ++ "+AND+" ++ String.intercalate "+AND+" ["abs:entropy"] :=
  ⟨by decide,
   (buildSearchQuerySpec ⟨none, some "cs.AI", none, none, some "entropy",
      none, none, none, none⟩).2.2 "cat:cs.AI" "abs:entropy" [] (by decide)⟩

/-- C5: for both search operations a supplied max_results above 2000 is
sent upstream as exactly 2000 and an omitted max_results as exactly 10;
the operations always produce a parameter set with max_results assigned,
never a rejection. -/
theorem maxResultsClampSpec (sargs : SearchPapersArgs)
    (cargs : SearchByCategoryArgs) (v w : Int) :
    (sargs.max_results = some v → 2000 < v →
      (searchPapers sargs).max_results = some 2000) ∧
    (sargs.max_results = none → (searchPapers sargs).max_results = some 10) ∧
    (cargs.max_results = some w → 2000 < w →
      (searchByCategory cargs).max_results = some 2000) ∧
    (cargs.max_results = none →
      (searchByCategory cargs).max_results = some 10) ∧
    (∃ u, (searchPapers sargs).max_results = some u) ∧
    (∃ u, (searchByCategory cargs).max_results = some u) := by
  refine ⟨?_, ?_, ?_, ?_, ⟨_, rfl⟩, ⟨_, rfl⟩⟩
  · intro h hv
    simp [searchPapers, clampMaxResults, h, min_eq_right (le_of_lt hv)]
  · intro h
    simp [searchPapers, clampMaxResults, h]
  · intro h hv
    simp [searchByCategory, clampMaxResults, h, min_eq_right (le_of_lt hv)]
  · intro h
    simp [searchByCategory, clampMaxResults, h]

/-- Witness for C5: max_results 5000 is capped to 2000 and an omitted
max_results defaults to 10. -/
theorem maxResultsClampSpecW :
    (searchPapers ⟨none, none, none, none, none, none, some 5000,
        none, none⟩).max_results = some 2000 ∧
    (searchByCategory ⟨"cs.AI", none, none, none, none⟩).max_results =
      some 10 :=
  ⟨(maxResultsClampSpec ⟨none, none, none, none, none, none, some 5000,
      none, none⟩ ⟨"cs.AI", none, none, none, none⟩ 5000 0).1 rfl (by decide),
   (maxResultsClampSpec ⟨none, none, none, none, none, none, some 5000,
      none, none⟩ ⟨"cs.AI", none, none, none, none⟩ 5000 0).2.2.2.1 rfl⟩

/-- C10: a supplied max_results value at most 2000 — zero and negative
values included — is forwarded upstream unchanged by both search
operations; only the upper bound is enforced. -/
theorem maxResultsPassThroughSpec (sargs : SearchPapersArgs)
    (cargs : SearchByCategoryArgs) (v w : Int) :
    (sargs.max_results = some v → v ≤ 2000 →
      (searchPapers sargs).max_results = some v) ∧
    (cargs.max_results = some w → w ≤ 2000 →
      (searchByCategory cargs).max_results = some w) := by
  constructor
  · intro h hv
    simp [searchPapers, clampMaxResults, h, min_eq_left hv]
  · intro h hv
    simp [searchByCategory, clampMaxResults, h, min_eq_left hv]

/-- Witness for C10 at a negative and a zero max_results value. -/
theorem maxResultsPassThroughSpecW :
    (searchPapers ⟨none, none, none, none, none, none, some (-3),
        none, none⟩).max_results = some (-3) ∧
    (searchByCategory ⟨"cs.AI", none, some 0, none, none⟩).max_results =
      some 0 :=
  ⟨(maxResultsPassThroughSpec ⟨none, none, none, none, none, none, some (-3),
      none, none⟩ ⟨"cs.AI", none, some 0, none, none⟩ (-3) 0).1 rfl (by decide),
   (maxResultsPassThroughSpec ⟨none, none, none, none, none, none, some (-3),
      none, none⟩ ⟨"cs.AI", none, some 0, none, none⟩ (-3) 0).2 rfl (by decide)⟩

/-- C9 counterexample: searchPapers with no criteria fields populated
assigns neither search_query nor id_list, so it is not the case that
every constructed query sets exactly one of the two parameters. -/
theorem queryParamSelectionCex :
    (searchPapers ⟨none, none, none, none, none, none, none, none,
        none⟩).search_query = none ∧
    (searchPapers ⟨none, none, none, none, none, none, none, none,
        none⟩).id_list = none := by
  exact ⟨by decide, by decide⟩

/-- C9 (amended): at most one of search_query and id_list is ever set —
getPaper sets id_list and never search_query, searchByCategory sets
search_query and never id_list, and searchPapers never sets id_list and
sets search_query exactly when the built query is non-empty (so neither
parameter is set when no criteria field is populated). -/
theorem queryParamSelectionSpec (gargs : GetPaperArgs)
    (sargs : SearchPapersArgs) (cargs : SearchByCategoryArgs) :
    (getPaper gargs).id_list = some gargs.paper_id ∧
    (getPaper gargs).search_query = none ∧
    (searchPapers sargs).id_list = none ∧
    (searchByCategory cargs).id_list = none ∧
    (searchByCategory cargs).search_query = some ("cat:" ++ cargs.category) ∧
    ((searchPapers sargs).search_query = none ↔ buildSearchQuery sargs = "") := by
  refine ⟨rfl, rfl, rfl, rfl, rfl, ?_⟩
  by_cases h : buildSearchQuery sargs = "" <;> simp [searchPapers, h]

/-- Witness for C9 (amended) at concrete arguments. -/
theorem queryParamSelectionSpecW :
    (getPaper ⟨"2104.13478"⟩).id_list = some "2104.13478" ∧
    (searchPapers ⟨none, some "cs.AI", none, none, none, none, none, none,
        none⟩).search_query ≠ none :=
  ⟨(queryParamSelectionSpec ⟨"2104.13478"⟩
      ⟨none, some "cs.AI", none, none, none, none, none, none, none⟩
      ⟨"cs.AI", none, none, none, none⟩).1,
   fun h =>
     absurd ((queryParamSelectionSpec ⟨"2104.13478"⟩
       ⟨none, some "cs.AI", none, none, none, none, none, none, none⟩
       ⟨"cs.AI", none, none, none, none⟩).2.2.2.2.2.mp h) (by decide)⟩

/-- C6 counterexample: an identifier that does not start with the URI
stem http://arxiv.org/abs/ but contains it in the middle is still
changed by the derivation, so the short form does not equal the primary
identifier although the stem is absent as a leading prefix. -/
theorem arxivShortIdCex :
    ("xhttp://arxiv.org/abs/123" : String).data.take absUriPat.length ≠
      absUriPat ∧
    arxivShortId "xhttp://arxiv.org/abs/123" = "x123" ∧
    arxivShortId "xhttp://arxiv.org/abs/123" ≠ "xhttp://arxiv.org/abs/123" := by
  exact ⟨by decide, by decide, by decide⟩

/-- C6 (amended): when the primary identifier starts with the URI stem
http://arxiv.org/abs/ the short form is the identifier with that leading
stem removed; when the stem occurs nowhere in the identifier the short
form equals the identifier unchanged; the derivation removes the first
occurrence of the stem wherever it appears and never fails. -/
theorem arxivShortIdSpec (s : String) :
    (s.data.take absUriPat.length = absUriPat →
      (arxivShortId s).data = s.data.drop absUriPat.length) ∧
    (occursIn absUriPat s.data = false → arxivShortId s = s) := by
  constructor
  · intro h
    show replaceFirst absUriPat s.data = s.data.drop absUriPat.length
    exact replaceFirst_of_lead absUriPat s.data h
  · intro h
    have habs := occursIn_false_absent absUriPat s.data (by decide) h
    show (⟨replaceFirst absUriPat s.data⟩ : String) = s
    rw [replaceFirst_of_absent absUriPat s.data habs]

/-- Witness for C6 (amended): a URI-form identifier is stripped and a
bare identifier passes through unchanged. -/
theorem arxivShortIdSpecW :
    (arxivShortId "http://arxiv.org/abs/2104.13478").data =
      ("http://arxiv.org/abs/2104.13478" : String).data.drop
        absUriPat.length ∧
    arxivShortId "2104.13478" = "2104.13478" :=
  ⟨(arxivShortIdSpec "http://arxiv.org/abs/2104.13478").1 (by decide),
   (arxivShortIdSpec "2104.13478").2 (by decide)⟩
